import Mathlib

/-!
Verification of the perf-stress test runner
(`azure_devtools/perfstress_tests/_perf_stress_runner.py`).

The aggregation functions of the runner (`_get_completed_operations`,
`_get_operations_per_second`), its per-phase reporting (`_run_tests`), the
status-tick printer (`_print_status`) and the orchestration sequence
(`start`) are embedded shallowly below.  Worker state is a pair
`(completed_operations, last_completion_time)`; the orchestration sequence
is embedded as a function from a run configuration and a table of hook
outcomes (which hooks raise) to the list of hook-invocation events it
performs, mirroring the `try`/`except`/`finally` nesting of `start`.
-/

namespace PerfStressRunner

/-- Worker snapshot as read by the runner: `completed_operations` paired with
`last_completion_time` (Python float, modelled as a rational). -/
abbrev Worker := Nat × ℚ

/-- Embeds `_PerfStressRunner._get_completed_operations`:
`sum([t.completed_operations for t in self._tests])`. -/
def _get_completed_operations (tests : List Worker) : Nat :=
  (tests.map (fun t => t.1)).sum

/-- Embeds `_PerfStressRunner._get_operations_per_second`:
`sum(map(lambda x: x[0] / x[1] if x[1] else 0, test_results))`.
The Python truthiness test `if x[1]` divides exactly when
`last_completion_time` is nonzero. -/
def _get_operations_per_second (tests : List Worker) : ℚ :=
  (tests.map (fun x => if x.2 ≠ 0 then (x.1 : ℚ) / x.2 else 0)).sum

/-- The formula the spec gives for `operations_per_second`: each worker with
`last_completion_time` greater than 0 contributes its individual rate,
every other worker contributes 0.  Stated from the words of the spec, to be
compared with `_get_operations_per_second` above. -/
def operationsPerSecondSpecFormula (tests : List Worker) : ℚ :=
  (tests.map (fun x => if 0 < x.2 then (x.1 : ℚ) / x.2 else 0)).sum

/-- Final statistics of one phase, as logged by `_run_tests` when
`operations_per_second` is truthy. -/
structure PhaseStats where
  total_operations : Nat
  weighted_average_seconds : ℚ
  operations_per_second : ℚ
  seconds_per_operation : ℚ
deriving DecidableEq, Repr

/-- Embeds the reporting tail of `_PerfStressRunner._run_tests`: after the
phase, `total_operations` and `operations_per_second` are computed; if the
latter is truthy the three derived statistics are logged, otherwise the
distinct "Completed without generating operation statistics." branch is
taken (`none`) and no division is performed. -/
def _run_tests_report (tests : List Worker) : Option PhaseStats :=
  let total_operations := _get_completed_operations tests
  let operations_per_second := _get_operations_per_second tests
  if operations_per_second ≠ 0 then
    some ⟨total_operations, (total_operations : ℚ) / operations_per_second,
          operations_per_second, 1 / operations_per_second⟩
  else
    none

/-- One status line as logged by `_print_status`: whether the phase header
was printed on this tick, and the Current / Total / Average columns. -/
structure StatusLine where
  header : Bool
  current : Int
  total : Nat
  average : ℚ
deriving DecidableEq, Repr

/-- The value `_run_tests` assigns to `self._operation_status_tracker` at
phase start (`self._operation_status_tracker = -1`). -/
def phaseStartTracker : Int := -1

/-- Embeds `_PerfStressRunner._print_status`: on the sentinel value `-1` the
tracker is first reset to `0` and the header line is printed; then
`current = total - tracker`, and the tracker is left holding `total`.
Returns the printed line and the new tracker value. -/
def _print_status (tests : List Worker) (tracker : Int) : StatusLine × Int :=
  let headerPrinted := tracker = -1
  let tracker0 : Int := if tracker = -1 then 0 else tracker
  let total_operations := _get_completed_operations tests
  let current_operations : Int := (total_operations : Int) - tracker0
  let average_operations := _get_operations_per_second tests
  (⟨headerPrinted, current_operations, total_operations, average_operations⟩,
   (total_operations : Int))

/-- The sequence of status ticks of a phase: `snapshots` are the worker states
observed by the timer callback at each tick; the tracker value threads from
one tick to the next exactly as `_print_status` stores it. -/
def runTicks (tracker : Int) : List (List Worker) → List StatusLine
  | [] => []
  | c :: cs => (_print_status c tracker).1 :: runTicks (_print_status c tracker).2 cs

/-- Modelled from the spec: the run-loop of a worker ("Worker Unit" §4.1) adds the
operations completed during the phase to its `completed_operations` counter
and records `last_completion_time` once per phase (the worker base class is
not under `src/`).  The function `_run_tests` itself contains no reset of
these counters; it only resets `_operation_status_tracker`.  `work` gives,
per worker, the operations completed this phase and the elapsed time
recorded. -/
def runPhaseWorkers (tests : List Worker) (work : List (Nat × ℚ)) : List Worker :=
  List.zipWith (fun t w => (t.1 + w.1, w.2)) tests work

/-- The global arguments parsed by `_parse_args` that the orchestration
sequence reads.  `parallel`, `duration`, `iterations` and `warmup` are
Python ints. -/
structure RunConfig where
  parallel : Int
  duration : Int
  iterations : Int
  warmup : Int
  no_cleanup : Bool
  sync : Bool
  profile : Bool
deriving DecidableEq, Repr

/-- Which hook invocations raise, per hook and (for per-instance hooks)
per instance index; phase runs raise per phase index. -/
structure HookBehavior where
  globalSetupRaises : Bool
  setupRaises : Nat → Bool
  postSetupRaises : Nat → Bool
  runPhaseRaises : Nat → Bool
  preCleanupRaises : Nat → Bool
  cleanupRaises : Nat → Bool
  globalCleanupRaises : Bool
  closeRaises : Nat → Bool

/-- Hook-invocation events recorded by the orchestration sequence. -/
inductive Event where
  | globalSetup
  | setup (i : Nat)
  | postSetup (i : Nat)
  | runPhase (k : Nat)
  | preCleanup (i : Nat)
  | cleanup (i : Nat)
  | globalCleanup
  | close (i : Nat)
deriving DecidableEq, Repr

/-- Number of worker instances `start` constructs:
`[self._test_class_to_run(...) for _ in range(self.per_test_args.parallel)]`;
in Python, `range` of a non-positive int is empty. -/
def numInstances (cfg : RunConfig) : Nat := cfg.parallel.toNat

/-- Events of one `asyncio.gather` fan-out over all instances: the coroutine of every
instance is invoked. -/
def gatherEvents (mk : Nat → Event) (n : Nat) : List Event :=
  (List.range n).map mk

/-- An `asyncio.gather` fan-out raises exactly when some member raises. -/
def gatherRaises (raises : Nat → Bool) (n : Nat) : Bool :=
  (List.range n).any raises

/-- Phase indices run by `start`: index 0 is the warmup phase, run when
`self.per_test_args.warmup` is truthy and `profile` is not set; indices
1..iterations are the measured iterations (`for i in range(iterations)`). -/
def phases (cfg : RunConfig) : List Nat :=
  (if cfg.warmup ≠ 0 ∧ cfg.profile = false then [0] else []) ++
    (List.range cfg.iterations.toNat).map (fun i => i + 1)

/-- Sequential `await self._run_tests(...)` calls: the first phase whose run
raises aborts the remaining phases and propagates. -/
def runSeq (b : HookBehavior) : List Nat → List Event × Bool
  | [] => ([], false)
  | k :: ks =>
    if b.runPhaseRaises k then ([Event.runPhase k], true)
    else
      let r := runSeq b ks
      (Event.runPhase k :: r.1, r.2)

/-- Body of the innermost `try` of `start`: the `setup()` gather, then the
`post_setup()` gather, then warmup and measured phases.  Returns the events
performed and whether an exception is propagating when the body exits. -/
def innerBody (cfg : RunConfig) (b : HookBehavior) (n : Nat) : List Event × Bool :=
  if gatherRaises b.setupRaises n then
    (gatherEvents Event.setup n, true)
  else if gatherRaises b.postSetupRaises n then
    (gatherEvents Event.setup n ++ gatherEvents Event.postSetup n, true)
  else
    let r := runSeq b (phases cfg)
    (gatherEvents Event.setup n ++ gatherEvents Event.postSetup n ++ r.1, r.2)

/-- The innermost `try`/`except`/`finally` of `start`: the `except Exception`
clause swallows any exception from the body, then the `finally` clause runs
the `pre_cleanup()` gather and, when that does not raise and `--no-cleanup`
is not set, the `cleanup()` gather.  An exception raised inside the
`finally` clause propagates (skipping the rest of the clause). -/
def innerBlock (cfg : RunConfig) (b : HookBehavior) (n : Nat) : List Event × Bool :=
  let body := (innerBody cfg b n).1
  if gatherRaises b.preCleanupRaises n then
    (body ++ gatherEvents Event.preCleanup n, true)
  else if cfg.no_cleanup then
    (body ++ gatherEvents Event.preCleanup n, false)
  else
    (body ++ gatherEvents Event.preCleanup n ++ gatherEvents Event.cleanup n,
     gatherRaises b.cleanupRaises n)

/-- Body of the middle `try` of `start`: `await self._tests[0].global_setup()`
(an `IndexError` when there are no instances), then the innermost block.
If `global_setup()` raises, the innermost `try` statement — including its
`finally` clause — is never entered. -/
def midBody (cfg : RunConfig) (b : HookBehavior) (n : Nat) : List Event × Bool :=
  if n = 0 then ([], true)
  else if b.globalSetupRaises then ([Event.globalSetup], true)
  else
    let ib := innerBlock cfg b n
    (Event.globalSetup :: ib.1, ib.2)

/-- The middle `try`/`except`/`finally` of `start`: the `except Exception`
clause swallows any exception from the body, then the `finally` clause runs
`await self._tests[0].global_cleanup()` — but only when `--no-cleanup` is
not set (and it is an `IndexError` when there are no instances). -/
def midBlock (cfg : RunConfig) (b : HookBehavior) (n : Nat) : List Event × Bool :=
  let body := (midBody cfg b n).1
  if cfg.no_cleanup then (body, false)
  else if n = 0 then (body, true)
  else (body ++ [Event.globalCleanup], b.globalCleanupRaises)

/-- Embeds `_PerfStressRunner.start`: the outermost `except Exception`
swallows whatever escapes the middle block, and the outermost `finally`
always runs the `close()` gather over every instance; an exception from
that gather is the only one that escapes `start` (the returned flag). -/
def start (cfg : RunConfig) (b : HookBehavior) : List Event × Bool :=
  let n := numInstances cfg
  (( midBlock cfg b n).1 ++ gatherEvents Event.close n,
   gatherRaises b.closeRaises n)

/-- Whether an event is a `close()` invocation (on any instance). -/
def isCloseEvent : Event → Bool
  | Event.close _ => true
  | _ => false

/-- Test-class lookup `self._test_classes[args.test]`, over the discovered
name-to-class association list. -/
def lookupTest {α : Type} (classes : List (String × α)) (t : String) : Option α :=
  (classes.find? (fun p => p.1 == t)).map (fun p => p.2)

/-- The Python builtin `sorted` over the discovered test names. -/
def sortedTestNames (names : List String) : List String :=
  List.insertionSort (fun a b => a ≤ b) names

/-- The error logged by `_parse_args` on an unknown test name:
`"Invalid test: {}\n    Test must be one of: {}\n"` formatted with the name
and `" ".join(sorted(self._test_classes.keys()))`. -/
def invalidTestMessage (t : String) (names : List String) : String :=
  "Invalid test: " ++ t ++ "\n    Test must be one of: " ++
    String.intercalate (" ") (sortedTestNames names) ++ "\n"

/-- Embeds the test-selection part of `_PerfStressRunner._parse_args`: the
dictionary lookup raises `KeyError` for an unknown name; the handler logs
the invalid-test message and re-raises (`raise`), so parsing fails. -/
def parseTestName {α : Type} (classes : List (String × α)) (t : String) :
    Except String α :=
  match lookupTest classes t with
  | some c => Except.ok c
  | none => Except.error (invalidTestMessage t (classes.map (fun p => p.1)))

/-- Embeds the `--parallel` argument: `type=int`, `default=1`, with no
further validation — any supplied integer is accepted. -/
def parseParallel : Option Int → Int
  | none => 1
  | some v => v

/-- The runner entry as far as hook invocations are concerned: `_parse_args`
runs during construction, before `start`; when the test name is unknown the
re-raised `KeyError` terminates the process and `start` — hence every
workload hook — is never reached.  Returns the parse outcome and the list
of hook events performed. -/
def runProgram {α : Type} (classes : List (String × α)) (t : String)
    (cfg : RunConfig) (b : HookBehavior) : Except String Unit × List Event :=
  match parseTestName classes t with
  | Except.error e => (Except.error e, [])
  | Except.ok _ => (Except.ok (), (start cfg b).1)

/-- A hook-outcome table where no hook raises. -/
def calmHooks : HookBehavior :=
  ⟨false, fun _ => false, fun _ => false, fun _ => false,
   fun _ => false, fun _ => false, false, fun _ => false⟩

/-- A run configuration with the argparse defaults
(`-p 1 -d 10 -i 1 -w 5`, all flags off). -/
def defaultConfig : RunConfig := ⟨1, 10, 1, 5, false, false, false⟩

/-- A hook-outcome table where `setup()` raises on every instance and nothing
else raises. -/
def allSetupRaise : HookBehavior :=
  ⟨false, fun _ => true, fun _ => false, fun _ => false,
   fun _ => false, fun _ => false, false, fun _ => false⟩

/-- A hook-outcome table where `pre_cleanup()` raises on every instance and
nothing else raises. -/
def preCleanupRaise : HookBehavior :=
  ⟨false, fun _ => false, fun _ => false, fun _ => false,
   fun _ => true, fun _ => false, false, fun _ => false⟩

lemma mem_gatherEvents {mk : Nat → Event} {n : Nat} {e : Event}
    (he : e ∈ gatherEvents mk n) : ∃ j, j < n ∧ e = mk j := by
  simp only [gatherEvents, List.mem_map, List.mem_range] at he
  obtain ⟨j, hj, hje⟩ := he
  exact ⟨j, hj, hje.symm⟩

lemma count_gatherEvents_of_ne (mk : Nat → Event) (e : Event) (n : Nat)
    (h : ∀ j, mk j ≠ e) : (gatherEvents mk n).count e = 0 := by
  refine List.count_eq_zero.mpr ?_
  intro he
  obtain ⟨j, _, hje⟩ := mem_gatherEvents he
  exact h j hje.symm

lemma count_gatherEvents_self (mk : Nat → Event) (hinj : Function.Injective mk)
    {i n : Nat} (h : i < n) : (gatherEvents mk n).count (mk i) = 1 :=
  List.count_eq_one_of_mem ((List.nodup_range n).map hinj)
    (List.mem_map.mpr ⟨i, List.mem_range.mpr h, rfl⟩)

lemma setup_injective : Function.Injective Event.setup := by
  intro a b h; injection h

lemma postSetup_injective : Function.Injective Event.postSetup := by
  intro a b h; injection h

lemma preCleanup_injective : Function.Injective Event.preCleanup := by
  intro a b h; injection h

lemma cleanup_injective : Function.Injective Event.cleanup := by
  intro a b h; injection h

lemma close_injective : Function.Injective Event.close := by
  intro a b h; injection h

lemma mem_runSeq {b : HookBehavior} {ks : List Nat} {e : Event}
    (he : e ∈ (runSeq b ks).1) : ∃ k, e = Event.runPhase k := by
  induction ks with
  | nil => simp [runSeq] at he
  | cons k ks ih =>
    cases hk : b.runPhaseRaises k with
    | true =>
      simp [runSeq, hk] at he
      exact ⟨k, he⟩
    | false =>
      simp [runSeq, hk] at he
      rcases he with he | he
      · exact ⟨k, he⟩
      · exact ih he

lemma mem_innerBody {cfg : RunConfig} {b : HookBehavior} {n : Nat} {e : Event}
    (he : e ∈ (innerBody cfg b n).1) :
    (∃ i, i < n ∧ (e = Event.setup i ∨ e = Event.postSetup i)) ∨
      ∃ k, e = Event.runPhase k := by
  cases h1 : gatherRaises b.setupRaises n with
  | true =>
    simp [innerBody, h1] at he
    obtain ⟨i, hi, rfl⟩ := mem_gatherEvents he
    exact Or.inl ⟨i, hi, Or.inl rfl⟩
  | false =>
    cases h2 : gatherRaises b.postSetupRaises n with
    | true =>
      simp [innerBody, h1, h2] at he
      rcases he with he | he <;> obtain ⟨i, hi, rfl⟩ := mem_gatherEvents he
      · exact Or.inl ⟨i, hi, Or.inl rfl⟩
      · exact Or.inl ⟨i, hi, Or.inr rfl⟩
    | false =>
      simp [innerBody, h1, h2] at he
      rcases he with he | he | he
      · obtain ⟨i, hi, rfl⟩ := mem_gatherEvents he
        exact Or.inl ⟨i, hi, Or.inl rfl⟩
      · obtain ⟨i, hi, rfl⟩ := mem_gatherEvents he
        exact Or.inl ⟨i, hi, Or.inr rfl⟩
      · exact Or.inr (mem_runSeq he)

lemma mem_innerBlock {cfg : RunConfig} {b : HookBehavior} {n : Nat} {e : Event}
    (he : e ∈ (innerBlock cfg b n).1) :
    (∃ i, i < n ∧ (e = Event.setup i ∨ e = Event.postSetup i ∨ e = Event.preCleanup i)) ∨
      (∃ k, e = Event.runPhase k) ∨
      (cfg.no_cleanup = false ∧ ∃ i, i < n ∧ e = Event.cleanup i) := by
  have hbody : ∀ e, e ∈ (innerBody cfg b n).1 →
      (∃ i, i < n ∧ (e = Event.setup i ∨ e = Event.postSetup i ∨ e = Event.preCleanup i)) ∨
        (∃ k, e = Event.runPhase k) ∨
        (cfg.no_cleanup = false ∧ ∃ i, i < n ∧ e = Event.cleanup i) := by
    intro x hx
    rcases mem_innerBody hx with ⟨i, hi, hx2⟩ | hk
    · rcases hx2 with rfl | rfl
      · exact Or.inl ⟨i, hi, Or.inl rfl⟩
      · exact Or.inl ⟨i, hi, Or.inr (Or.inl rfl)⟩
    · exact Or.inr (Or.inl hk)
  cases h1 : gatherRaises b.preCleanupRaises n with
  | true =>
    simp [innerBlock, h1] at he
    rcases he with he | he
    · exact hbody e he
    · obtain ⟨i, hi, rfl⟩ := mem_gatherEvents he
      exact Or.inl ⟨i, hi, Or.inr (Or.inr rfl)⟩
  | false =>
    cases h2 : cfg.no_cleanup with
    | true =>
      rw [h2] at hbody
      simp [innerBlock, h1, h2] at he
      rcases he with he | he
      · exact hbody e he
      · obtain ⟨i, hi, rfl⟩ := mem_gatherEvents he
        exact Or.inl ⟨i, hi, Or.inr (Or.inr rfl)⟩
    | false =>
      rw [h2] at hbody
      simp [innerBlock, h1, h2] at he
      rcases he with he | he | he
      · exact hbody e he
      · obtain ⟨i, hi, rfl⟩ := mem_gatherEvents he
        exact Or.inl ⟨i, hi, Or.inr (Or.inr rfl)⟩
      · obtain ⟨i, hi, rfl⟩ := mem_gatherEvents he
        exact Or.inr (Or.inr ⟨rfl, i, hi, rfl⟩)

lemma mem_midBody {cfg : RunConfig} {b : HookBehavior} {n : Nat} {e : Event}
    (he : e ∈ (midBody cfg b n).1) :
    e = Event.globalSetup ∨
      (∃ i, i < n ∧ (e = Event.setup i ∨ e = Event.postSetup i ∨ e = Event.preCleanup i)) ∨
      (∃ k, e = Event.runPhase k) ∨
      (cfg.no_cleanup = false ∧ ∃ i, i < n ∧ e = Event.cleanup i) := by
  by_cases h0 : n = 0
  · simp [midBody, h0] at he
  · cases h1 : b.globalSetupRaises with
    | true =>
      simp [midBody, h0, h1] at he
      exact Or.inl he
    | false =>
      simp [midBody, h0, h1] at he
      rcases he with he | he
      · exact Or.inl he
      · exact Or.inr (mem_innerBlock he)

lemma mem_midBlock {cfg : RunConfig} {b : HookBehavior} {n : Nat} {e : Event}
    (he : e ∈ (midBlock cfg b n).1) :
    e = Event.globalSetup ∨
      (∃ i, i < n ∧ (e = Event.setup i ∨ e = Event.postSetup i ∨ e = Event.preCleanup i)) ∨
      (∃ k, e = Event.runPhase k) ∨
      (cfg.no_cleanup = false ∧
        ((∃ i, i < n ∧ e = Event.cleanup i) ∨ e = Event.globalCleanup)) := by
  have hbody : ∀ e, e ∈ (midBody cfg b n).1 →
      e = Event.globalSetup ∨
        (∃ i, i < n ∧ (e = Event.setup i ∨ e = Event.postSetup i ∨ e = Event.preCleanup i)) ∨
        (∃ k, e = Event.runPhase k) ∨
        (cfg.no_cleanup = false ∧
          ((∃ i, i < n ∧ e = Event.cleanup i) ∨ e = Event.globalCleanup)) := by
    intro x hx
    rcases mem_midBody hx with h | h | h | ⟨hnc, h⟩
    · exact Or.inl h
    · exact Or.inr (Or.inl h)
    · exact Or.inr (Or.inr (Or.inl h))
    · exact Or.inr (Or.inr (Or.inr ⟨hnc, Or.inl h⟩))
  cases h1 : cfg.no_cleanup with
  | true =>
    rw [h1] at hbody
    simp only [midBlock, h1, if_true] at he
    exact hbody e he
  | false =>
    rw [h1] at hbody
    by_cases h0 : n = 0
    · subst h0
      simp [midBlock, h1] at he
      exact hbody e he
    · simp [midBlock, h1, h0] at he
      rcases he with he | he
      · exact hbody e he
      · exact Or.inr (Or.inr (Or.inr ⟨rfl, Or.inr he⟩))

lemma start_fst (cfg : RunConfig) (b : HookBehavior) :
    (start cfg b).1 =
      (midBlock cfg b (numInstances cfg)).1 ++
        gatherEvents Event.close (numInstances cfg) := rfl

lemma length_gatherEvents (mk : Nat → Event) (n : Nat) :
    (gatherEvents mk n).length = n := by
  simp [gatherEvents]

lemma count_close_midBlock (cfg : RunConfig) (b : HookBehavior) (n i : Nat) :
    ((midBlock cfg b n).1).count (Event.close i) = 0 := by
  refine List.count_eq_zero.mpr ?_
  intro he
  have h := mem_midBlock he
  simp_all

lemma countP_close_midBlock (cfg : RunConfig) (b : HookBehavior) (n : Nat) :
    ((midBlock cfg b n).1).countP isCloseEvent = 0 := by
  refine List.countP_eq_zero.mpr ?_
  intro e he
  rcases mem_midBlock he with h | ⟨j, _, h | h | h⟩ | ⟨k, h⟩ | ⟨_, ⟨j, _, h⟩ | h⟩ <;>
    simp [h, isCloseEvent]

lemma countP_close_gather (n : Nat) :
    (gatherEvents Event.close n).countP isCloseEvent = n := by
  rw [List.countP_eq_length.mpr, length_gatherEvents]
  intro e he
  obtain ⟨j, _, rfl⟩ := mem_gatherEvents he
  simp [isCloseEvent]

lemma count_cleanup_innerBody (cfg : RunConfig) (b : HookBehavior) (n i : Nat) :
    ((innerBody cfg b n).1).count (Event.cleanup i) = 0 := by
  refine List.count_eq_zero.mpr ?_
  intro he
  have h := mem_innerBody he
  simp_all

lemma count_preCleanup_innerBody (cfg : RunConfig) (b : HookBehavior) (n i : Nat) :
    ((innerBody cfg b n).1).count (Event.preCleanup i) = 0 := by
  refine List.count_eq_zero.mpr ?_
  intro he
  have h := mem_innerBody he
  simp_all

lemma count_preCleanup_innerBlock (cfg : RunConfig) (b : HookBehavior) {n i : Nat}
    (hi : i < n) : ((innerBlock cfg b n).1).count (Event.preCleanup i) = 1 := by
  have hgather := count_gatherEvents_self Event.preCleanup preCleanup_injective hi
  cases h1 : gatherRaises b.preCleanupRaises n with
  | true =>
    simp only [innerBlock, h1, if_true]
    rw [List.count_append, count_preCleanup_innerBody, hgather]
  | false =>
    cases h2 : cfg.no_cleanup with
    | true =>
      simp only [innerBlock, h1, h2, Bool.false_eq_true, if_false, if_true]
      rw [List.count_append, count_preCleanup_innerBody, hgather]
    | false =>
      simp only [innerBlock, h1, h2, Bool.false_eq_true, if_false]
      rw [List.count_append, List.count_append, count_preCleanup_innerBody, hgather,
        count_gatherEvents_of_ne Event.cleanup _ _ (by simp)]

lemma count_preCleanup_midBlock (cfg : RunConfig) (b : HookBehavior) {n i : Nat}
    (hi : i < n) (hgs : b.globalSetupRaises = false) :
    ((midBlock cfg b n).1).count (Event.preCleanup i) = 1 := by
  have hn0 : ¬ n = 0 := by omega
  have hbody : ((midBody cfg b n).1).count (Event.preCleanup i) = 1 := by
    simp only [midBody, hn0, hgs, Bool.false_eq_true, if_false]
    rw [List.count_cons_of_ne (by simp), count_preCleanup_innerBlock cfg b hi]
  cases h1 : cfg.no_cleanup with
  | true => simpa only [midBlock, h1, if_true] using hbody
  | false =>
    simp only [midBlock, h1, hn0, Bool.false_eq_true, if_false]
    rw [List.count_append, hbody]
    simp

lemma count_cleanup_midBlock_of_pcRaises (cfg : RunConfig) (b : HookBehavior)
    {n : Nat} (hpc : gatherRaises b.preCleanupRaises n = true) (i : Nat) :
    ((midBlock cfg b n).1).count (Event.cleanup i) = 0 := by
  have hinner : ((innerBlock cfg b n).1).count (Event.cleanup i) = 0 := by
    simp only [innerBlock, hpc, if_true]
    rw [List.count_append, count_cleanup_innerBody,
      count_gatherEvents_of_ne Event.preCleanup _ _ (by simp)]
  have hbody : ((midBody cfg b n).1).count (Event.cleanup i) = 0 := by
    by_cases hn0 : n = 0
    · simp [midBody, hn0]
    · cases hgs : b.globalSetupRaises with
      | true => simp [midBody, hn0, hgs]
      | false =>
        simp only [midBody, hn0, hgs, Bool.false_eq_true, if_false]
        rw [List.count_cons_of_ne (by simp), hinner]
  cases h1 : cfg.no_cleanup with
  | true => simpa only [midBlock, h1, if_true] using hbody
  | false =>
    by_cases hn0 : n = 0
    · simpa only [midBlock, h1, hn0, Bool.false_eq_true, if_false, if_true] using hbody
    · simp only [midBlock, h1, hn0, Bool.false_eq_true, if_false]
      rw [List.count_append, hbody]
      simp

lemma count_globalCleanup_midBody (cfg : RunConfig) (b : HookBehavior) (n : Nat) :
    ((midBody cfg b n).1).count Event.globalCleanup = 0 := by
  refine List.count_eq_zero.mpr ?_
  intro he
  have h := mem_midBody he
  simp_all

lemma count_globalCleanup_midBlock (cfg : RunConfig) (b : HookBehavior) {n : Nat}
    (hnc : cfg.no_cleanup = false) (hn : ¬ n = 0) :
    ((midBlock cfg b n).1).count Event.globalCleanup = 1 := by
  simp only [midBlock, hnc, hn, Bool.false_eq_true, if_false]
  rw [List.count_append, count_globalCleanup_midBody]
  simp

lemma count_cleanup_midBlock_of_no_cleanup (cfg : RunConfig) (b : HookBehavior)
    {n : Nat} (hnc : cfg.no_cleanup = true) (i : Nat) :
    ((midBlock cfg b n).1).count (Event.cleanup i) = 0 := by
  refine List.count_eq_zero.mpr ?_
  intro he
  have h := mem_midBlock he
  simp_all

lemma count_globalCleanup_midBlock_of_no_cleanup (cfg : RunConfig)
    (b : HookBehavior) {n : Nat} (hnc : cfg.no_cleanup = true) :
    ((midBlock cfg b n).1).count Event.globalCleanup = 0 := by
  refine List.count_eq_zero.mpr ?_
  intro he
  have h := mem_midBlock he
  simp_all

/-- C1 counterexample: a run with `--no-cleanup` set, one instance and no
failing hook never invokes `global_cleanup()` (the code guards the
`global_cleanup()` call with `if not self.per_test_args.no_cleanup`),
refuting the claim that `global_cleanup()` is always invoked on instance 0;
the run does reach teardown (`pre_cleanup()` runs once, `cleanup()` never). -/
theorem C1_counterexample :
    ((start ⟨1, 10, 1, 5, true, false, false⟩ calmHooks).1).count
        Event.globalCleanup = 0 ∧
      ((start ⟨1, 10, 1, 5, true, false, false⟩ calmHooks).1).count
        (Event.preCleanup 0) = 1 ∧
      ((start ⟨1, 10, 1, 5, true, false, false⟩ calmHooks).1).count
        (Event.cleanup 0) = 0 := by
  decide

/-- C1 (amended): with the cleanup-skip flag set, `start` never invokes
`cleanup()` on any instance and also never invokes `global_cleanup()`;
`pre_cleanup()` is invoked exactly once on every instance provided
`global_setup()` did not raise (when `global_setup()` raises, the
`try` statement whose `finally` clause holds `pre_cleanup()` is never
entered). -/
theorem C1_amended_no_cleanup_teardown (cfg : RunConfig) (b : HookBehavior)
    (hnc : cfg.no_cleanup = true) :
    (∀ i, ((start cfg b).1).count (Event.cleanup i) = 0) ∧
      ((start cfg b).1).count Event.globalCleanup = 0 ∧
      (b.globalSetupRaises = false → ∀ i, i < numInstances cfg →
        ((start cfg b).1).count (Event.preCleanup i) = 1) := by
  refine ⟨?_, ?_, ?_⟩
  · intro i
    rw [start_fst, List.count_append, count_cleanup_midBlock_of_no_cleanup cfg b hnc,
      count_gatherEvents_of_ne Event.close _ _ (by simp)]
  · rw [start_fst, List.count_append,
      count_globalCleanup_midBlock_of_no_cleanup cfg b hnc,
      count_gatherEvents_of_ne Event.close _ _ (by simp)]
  · intro hgs i hi
    rw [start_fst, List.count_append, count_preCleanup_midBlock cfg b hi hgs,
      count_gatherEvents_of_ne Event.close _ _ (by simp)]

/-- C1 witness: the amended statement evaluated on a concrete `--no-cleanup`
run with one instance and no failing hook. -/
theorem C1_witness :
    ((start ⟨1, 10, 1, 5, true, false, false⟩ calmHooks).1).count
        (Event.cleanup 0) = 0 ∧
      ((start ⟨1, 10, 1, 5, true, false, false⟩ calmHooks).1).count
        (Event.preCleanup 0) = 1 :=
  ⟨(C1_amended_no_cleanup_teardown _ calmHooks rfl).1 0,
   (C1_amended_no_cleanup_teardown _ calmHooks rfl).2.2 rfl 0 (by decide)⟩

/-- C2: for every run configuration and every combination of hook outcomes,
`start` invokes `close()` exactly once on each of the instances it created,
and the total number of `close()` invocations equals the configured
parallelism (`numInstances`). -/
theorem C2_close_exactly_once (cfg : RunConfig) (b : HookBehavior) :
    ((start cfg b).1).countP isCloseEvent = numInstances cfg ∧
      ∀ i, i < numInstances cfg →
        ((start cfg b).1).count (Event.close i) = 1 := by
  constructor
  · rw [start_fst, List.countP_append, countP_close_midBlock, countP_close_gather,
      Nat.zero_add]
  · intro i hi
    rw [start_fst, List.count_append, count_close_midBlock,
      count_gatherEvents_self Event.close close_injective hi, Nat.zero_add]

/-- C2 witness: a two-instance run in which `setup()` raises on every
instance still closes each instance exactly once. -/
theorem C2_witness :
    ((start ⟨2, 10, 1, 5, false, false, false⟩ allSetupRaise).1).count
        (Event.close 0) = 1 ∧
      ((start ⟨2, 10, 1, 5, false, false, false⟩ allSetupRaise).1).count
        (Event.close 1) = 1 :=
  ⟨(C2_close_exactly_once _ allSetupRaise).2 0 (by decide),
   (C2_close_exactly_once _ allSetupRaise).2 1 (by decide)⟩

/-- C5 counterexample: with cleanup enabled and `pre_cleanup()` raising, the
`cleanup()` gather — placed after the `pre_cleanup()` gather inside the same
`finally` clause — is never invoked, refuting the claim that `cleanup()` is
still invoked on all instances; `pre_cleanup()` itself did run. -/
theorem C5_counterexample :
    ((start ⟨1, 10, 1, 5, false, false, false⟩ preCleanupRaise).1).count
        (Event.cleanup 0) = 0 ∧
      ((start ⟨1, 10, 1, 5, false, false, false⟩ preCleanupRaise).1).count
        (Event.preCleanup 0) = 1 := by
  decide

/-- C5 (amended): if the concurrent `pre_cleanup()` fan-out raises, the
`cleanup()` stage is skipped even when cleanup is not disabled, but the
orchestrator still attempts the later teardown stages: `global_cleanup()`
is invoked once and `close()` is invoked once per instance. -/
theorem C5_amended_teardown_after_pre_cleanup_failure (cfg : RunConfig)
    (b : HookBehavior) (hnc : cfg.no_cleanup = false)
    (hn : 1 ≤ numInstances cfg)
    (hpc : gatherRaises b.preCleanupRaises (numInstances cfg) = true) :
    (∀ i, ((start cfg b).1).count (Event.cleanup i) = 0) ∧
      ((start cfg b).1).count Event.globalCleanup = 1 ∧
      ((start cfg b).1).countP isCloseEvent = numInstances cfg := by
  refine ⟨?_, ?_, ?_⟩
  · intro i
    rw [start_fst, List.count_append, count_cleanup_midBlock_of_pcRaises cfg b hpc,
      count_gatherEvents_of_ne Event.close _ _ (by simp)]
  · rw [start_fst, List.count_append,
      count_globalCleanup_midBlock cfg b hnc (by omega),
      count_gatherEvents_of_ne Event.close _ _ (by simp)]
  · rw [start_fst, List.countP_append, countP_close_midBlock, countP_close_gather,
      Nat.zero_add]

/-- C5 witness: the amended statement evaluated on a one-instance run whose
`pre_cleanup()` raises. -/
theorem C5_witness :
    ((start ⟨1, 10, 1, 5, false, false, false⟩ preCleanupRaise).1).count
        Event.globalCleanup = 1 ∧
      ((start ⟨1, 10, 1, 5, false, false, false⟩ preCleanupRaise).1).countP
        isCloseEvent = numInstances ⟨1, 10, 1, 5, false, false, false⟩ :=
  ⟨(C5_amended_teardown_after_pre_cleanup_failure _ preCleanupRaise rfl
      (by decide) (by decide)).2.1,
   (C5_amended_teardown_after_pre_cleanup_failure _ preCleanupRaise rfl
      (by decide) (by decide)).2.2⟩

lemma completed_runPhaseWorkers (tests work : List Worker)
    (h : tests.length = work.length) :
    _get_completed_operations (runPhaseWorkers tests work)
      = _get_completed_operations tests + (work.map (fun w => w.1)).sum := by
  induction tests generalizing work with
  | nil =>
    cases work with
    | nil => simp [runPhaseWorkers, _get_completed_operations]
    | cons w ws => simp at h
  | cons t ts ih =>
    cases work with
    | nil => simp at h
    | cons w ws =>
      have hh : ts.length = ws.length := by simpa using h
      have hws := ih ws hh
      simp only [runPhaseWorkers, List.zipWith_cons_cons, _get_completed_operations,
        List.map_cons, List.sum_cons] at hws ⊢
      omega

/-- C3: the aggregated `operations_per_second` is the sum over workers of
`completed_operations / last_completion_time` with zero contribution from a
worker whose `last_completion_time` is not greater than 0 — for worker
snapshots satisfying the data-model invariant `last_completion_time ≥ 0` — and on
counts `[100, 200]` with times `[1.0, 2.0]` it evaluates to 200, not 150. -/
theorem C3_operations_per_second_formula :
    (∀ tests : List Worker, (∀ x ∈ tests, 0 ≤ x.2) →
      _get_operations_per_second tests = operationsPerSecondSpecFormula tests) ∧
      _get_operations_per_second [(100, 1), (200, 2)] = 200 := by
  constructor
  · intro tests h
    unfold _get_operations_per_second operationsPerSecondSpecFormula
    congr 1
    refine List.map_congr_left ?_
    intro x hx
    by_cases hx2 : x.2 = 0
    · simp [hx2]
    · have hpos : 0 < x.2 := lt_of_le_of_ne (h x hx) (Ne.symm hx2)
      simp [hx2, hpos]
  · norm_num [_get_operations_per_second]

/-- C3 witness: the formula equivalence evaluated on the two-worker example. -/
theorem C3_witness :
    _get_operations_per_second [(100, 1), (200, 2)]
      = operationsPerSecondSpecFormula [(100, 1), (200, 2)] :=
  C3_operations_per_second_formula.1 _ (by norm_num)

/-- C4: running phases never resets `completed_operations` — each phase adds
its per-worker deltas to the existing counters — so after a warmup and a
first measured iteration the reported total is the grand total of both;
with 50 warmup operations and 70 measured operations it is 120. -/
theorem C4_counters_accumulate (tests warm meas : List Worker)
    (h1 : tests.length = warm.length) (h2 : tests.length = meas.length) :
    _get_completed_operations (runPhaseWorkers (runPhaseWorkers tests warm) meas)
        = _get_completed_operations tests + (warm.map (fun w => w.1)).sum
            + (meas.map (fun w => w.1)).sum ∧
      _get_completed_operations
        (runPhaseWorkers (runPhaseWorkers [((0 : Nat), (0 : ℚ))] [(50, 5)])
          [(70, 10)]) = 120 := by
  constructor
  · have hlen : (runPhaseWorkers tests warm).length = meas.length := by
      simp only [runPhaseWorkers, List.length_zipWith]
      omega
    rw [completed_runPhaseWorkers _ _ hlen, completed_runPhaseWorkers _ _ h1]
  · decide

/-- C4 witness: the accumulation statement evaluated on one worker with a
50-operation warmup and a 70-operation measured iteration. -/
theorem C4_witness :
    _get_completed_operations
        (runPhaseWorkers (runPhaseWorkers [((0 : Nat), (0 : ℚ))] [(50, 5)])
          [(70, 10)])
      = _get_completed_operations [((0 : Nat), (0 : ℚ))]
          + ([((50 : Nat), (5 : ℚ))].map (fun w => w.1)).sum
          + ([((70 : Nat), (10 : ℚ))].map (fun w => w.1)).sum :=
  (C4_counters_accumulate [(0, 0)] [(50, 5)] [(70, 10)] rfl rfl).1

lemma runTicks_current_sum (cs : List (List Worker)) (cLast : List Worker) :
    ∀ tr : Int,
      ((runTicks tr (cs ++ [cLast])).map StatusLine.current).sum
        = (_get_completed_operations cLast : Int) -
            (if tr = -1 then 0 else tr) := by
  induction cs with
  | nil =>
    intro tr
    simp [runTicks, _print_status]
  | cons c cs ih =>
    intro tr
    have hne : ¬ ((_get_completed_operations c : Int) = -1) := by omega
    simp only [List.cons_append, runTicks, List.map_cons, List.sum_cons,
      List.append_eq]
    rw [ih]
    simp only [_print_status, hne, if_false]
    by_cases htr : tr = -1 <;> simp [htr]

/-- C6: within one phase the tracker starts at the `-1` sentinel set by
`_run_tests`, so the `current` of the first tick is measured from a 0 baseline,
and the `current` values printed over the ticks of the phase telescope: their sum
equals the `total_operations` of the last tick. -/
theorem C6_status_tick_telescoping (cs : List (List Worker))
    (cLast : List Worker) :
    ((runTicks phaseStartTracker (cs ++ [cLast])).map StatusLine.current).sum
        = (_get_completed_operations cLast : Int) ∧
      ∀ c : List Worker, (_print_status c phaseStartTracker).1.current
        = (_get_completed_operations c : Int) - 0 := by
  constructor
  · rw [runTicks_current_sum cs cLast phaseStartTracker]
    simp [phaseStartTracker]
  · intro c
    simp [_print_status, phaseStartTracker]

/-- C7: when the aggregated `operations_per_second` is zero, `_run_tests`
takes the distinct "no statistics" branch (`none`): no `PhaseStats` record —
hence neither `seconds_per_operation` nor `weighted_average_seconds` — is
produced, so reporting performs no division by the zero rate. -/
theorem C7_zero_throughput_no_statistics (tests : List Worker)
    (h : _get_operations_per_second tests = 0) :
    _run_tests_report tests = none := by
  simp [_run_tests_report, h]

/-- C7 witness: a worker that completed 5 operations but has
`last_completion_time = 0` yields zero throughput and the no-statistics
report. -/
theorem C7_witness : _run_tests_report [((5 : Nat), (0 : ℚ))] = none :=
  C7_zero_throughput_no_statistics _ (by norm_num [_get_operations_per_second])

/-- C10: on the first status tick of a phase the tracker still holds the
`-1` sentinel assigned at phase start, so the header line is printed and the
reported `current` equals the full cumulative `total_operations` — including
operations from earlier phases, since the baseline is reset to 0 rather than
to the pre-phase total; e.g. a worker carrying 50 warmup operations shows
`current = 50` on the first tick of the next phase. -/
theorem C10_first_tick_full_total (tests : List Worker) :
    (_print_status tests phaseStartTracker).1.header = true ∧
      (_print_status tests phaseStartTracker).1.current
        = (_get_completed_operations tests : Int) ∧
      (_print_status (runPhaseWorkers [((0 : Nat), (0 : ℚ))] [(50, 5)])
          phaseStartTracker).1.current = 50 := by
  refine ⟨?_, ?_, by decide⟩
  · simp [_print_status, phaseStartTracker]
  · simp [_print_status, phaseStartTracker]

/-- C8: a command line whose positional test name is not among the
discovered test classes makes `_parse_args` log the error listing the full
sorted set of discovered names and re-raise the `KeyError` (modelled as the
`Except.error` outcome, a non-zero exit), and no workload hook event is ever
performed. -/
theorem C8_unknown_test_name {α : Type} (classes : List (String × α))
    (t : String) (cfg : RunConfig) (b : HookBehavior)
    (h : lookupTest classes t = none) :
    runProgram classes t cfg b
      = (Except.error (invalidTestMessage t (classes.map (fun p => p.1))), []) := by
  simp [runProgram, parseTestName, h]

/-- C8 witness: with discovered tests `FooTest` and `BarTest`, the unknown
name `Baz` produces the error carrying the sorted name list and an empty
hook trace. -/
theorem C8_witness :
    runProgram [("FooTest", ()), ("BarTest", ())] ("Baz") defaultConfig calmHooks
        = (Except.error (invalidTestMessage ("Baz") ["FooTest", "BarTest"]), []) ∧
      lookupTest [("FooTest", ()), ("BarTest", ())] ("Baz") = (none : Option Unit) :=
  ⟨C8_unknown_test_name _ _ defaultConfig calmHooks (by decide), by decide⟩

/-- C9 counterexample: the `--parallel` argument is parsed with `type=int`
and no lower bound, so the value 0 is accepted as-is; the orchestrator then
constructs `range(0)` worker instances — the run begins with zero instances
and performs no hook event at all — refuting the claim that every accepted
configuration has parallelism at least 1. -/
theorem C9_counterexample :
    parseParallel (some 0) = 0 ∧
      numInstances ⟨0, 10, 1, 5, false, false, false⟩ = 0 ∧
      (start ⟨0, 10, 1, 5, false, false, false⟩ calmHooks).1 = [] := by
  decide

/-- C9 (amended): `--parallel` defaults to 1 when omitted but is never
validated: any integer is accepted, and for every configuration with a
non-positive parallelism the run begins with zero worker instances and
`start` performs no hook event (its first instance access raises an
`IndexError`, which it catches). -/
theorem C9_amended_parallel_unvalidated (cfg : RunConfig) (b : HookBehavior)
    (h : cfg.parallel ≤ 0) :
    numInstances cfg = 0 ∧ (start cfg b).1 = [] ∧ parseParallel none = 1 := by
  have hn : numInstances cfg = 0 := Int.toNat_of_nonpos h
  refine ⟨hn, ?_, rfl⟩
  rw [start_fst, hn]
  by_cases hnc : cfg.no_cleanup = true <;>
    simp [midBlock, midBody, gatherEvents, hnc]

/-- C9 witness: the amended statement evaluated at parallelism `-2`. -/
theorem C9_witness :
    numInstances ⟨-2, 10, 1, 5, false, false, false⟩ = 0 ∧
      (start ⟨-2, 10, 1, 5, false, false, false⟩ calmHooks).1 = [] ∧
      parseParallel none = 1 :=
  C9_amended_parallel_unvalidated _ calmHooks (by decide)

end PerfStressRunner
